import Mathlib

/-
Verification of the raster-vision configuration module
(rastervision/v2/core/rv_config.py): layered config resolution,
profile discovery, and the temporary-directory manager.

The Python module is shallowly embedded: the filesystem is a small
explicit state (existing directories and files plus failure predicates
for mkdir and touch), the OS environment is a partial map from variable
names to string values, and the layered key-value engine (everett) is
modelled from the spec as an ordered first-match-wins list of sources.
-/

namespace RV

/-! ## Characters used in string and char literals of the source -/

def squoteChar : Char := Char.ofNat 39

def dquoteChar : Char := Char.ofNat 34

def lbraceChar : Char := Char.ofNat 123

def rbraceChar : Char := Char.ofNat 125

/-! ## JSON values and a model of json.loads

load_conf_list calls json.loads on the quote-replaced string; the
parser below models the JSON grammar accepted by Python json.loads
(strict mode): null, true, false, numbers (plus NaN and the infinities),
double-quoted strings with escapes, arrays and objects, with JSON
whitespace.  Numeric lexemes are kept as strings: no claim depends on
numeric values, only on parse success and on the shape of the result. -/

inductive Json where
  | null : Json
  | bool (b : Bool) : Json
  | num (lexeme : String) : Json
  | str (s : String) : Json
  | arr (elems : List Json) : Json
  | obj (members : List (String × Json)) : Json

def jsonWsChar (c : Char) : Bool :=
  c = ' ' || c = '\t' || c = '\n' || c = '\r'

def skipWs : List Char → List Char
  | [] => []
  | c :: rest => if jsonWsChar c then skipWs rest else c :: rest

/-- Value of one hexadecimal digit, for the uXXXX escapes. -/
def hexVal (c : Char) : Option Nat :=
  let n := c.toNat
  if 48 ≤ n ∧ n ≤ 57 then some (n - 48)
  else if 97 ≤ n ∧ n ≤ 102 then some (n - 87)
  else if 65 ≤ n ∧ n ≤ 70 then some (n - 55)
  else none

/-- Body of a JSON string, after the opening double quote: returns the
decoded string and the input remaining after the closing quote.  The
fuel bounds the number of steps; every step consumes at least one input
character, so fuel equal to the input length plus one is enough. -/
def parseStringBody : Nat → List Char → List Char → Option (String × List Char)
  | 0, _, _ => none
  | Nat.succ fuel, cs, acc =>
    match cs with
    | [] => none
    | '\\' :: '\\' :: r => parseStringBody fuel r ('\\' :: acc)
    | '\\' :: '/' :: r => parseStringBody fuel r ('/' :: acc)
    | '\\' :: 'b' :: r => parseStringBody fuel r (Char.ofNat 8 :: acc)
    | '\\' :: 'f' :: r => parseStringBody fuel r (Char.ofNat 12 :: acc)
    | '\\' :: 'n' :: r => parseStringBody fuel r ('\n' :: acc)
    | '\\' :: 'r' :: r => parseStringBody fuel r ('\r' :: acc)
    | '\\' :: 't' :: r => parseStringBody fuel r ('\t' :: acc)
    | '\\' :: 'u' :: a :: b :: c :: d :: r =>
      match hexVal a, hexVal b, hexVal c, hexVal d with
      | some ha, some hb, some hc, some hd =>
        let n := ((ha * 16 + hb) * 16 + hc) * 16 + hd
        if 55296 ≤ n && n ≤ 56319 then
          match r with
          | '\\' :: 'u' :: a2 :: b2 :: c2 :: d2 :: r2 =>
            match hexVal a2, hexVal b2, hexVal c2, hexVal d2 with
            | some ha2, some hb2, some hc2, some hd2 =>
              let m := ((ha2 * 16 + hb2) * 16 + hc2) * 16 + hd2
              if 56320 ≤ m && m ≤ 57343 then
                parseStringBody fuel r2
                  (Char.ofNat (65536 + (n - 55296) * 1024 + (m - 56320)) :: acc)
              else parseStringBody fuel r (Char.ofNat n :: acc)
            | _, _, _, _ => parseStringBody fuel r (Char.ofNat n :: acc)
          | _ => parseStringBody fuel r (Char.ofNat n :: acc)
        else parseStringBody fuel r (Char.ofNat n :: acc)
      | _, _, _, _ => none
    | '\\' :: c :: r =>
      if c = dquoteChar then parseStringBody fuel r (dquoteChar :: acc)
      else none
    | ['\\'] => none
    | c :: rest =>
      if c = dquoteChar then some (String.mk acc.reverse, rest)
      else if c.toNat < 32 then none
      else parseStringBody fuel rest (c :: acc)

/-- Exponent part of a JSON number (possibly absent). -/
def parseExpPart (lex : List Char) (cs : List Char) :
    Option (List Char × List Char) :=
  match cs with
  | 'e' :: r =>
    let (sgn, r1) := match r with
      | '+' :: r2 => (['+'], r2)
      | '-' :: r2 => (['-'], r2)
      | _ => (([] : List Char), r)
    match r1.span Char.isDigit with
    | ([], _) => none
    | (ds, r2) => some (lex ++ 'e' :: sgn ++ ds, r2)
  | 'E' :: r =>
    let (sgn, r1) := match r with
      | '+' :: r2 => (['+'], r2)
      | '-' :: r2 => (['-'], r2)
      | _ => (([] : List Char), r)
    match r1.span Char.isDigit with
    | ([], _) => none
    | (ds, r2) => some (lex ++ 'E' :: sgn ++ ds, r2)
  | _ => some (lex, cs)

/-- Fraction and exponent parts of a JSON number (possibly absent). -/
def parseFracExp (lex : List Char) (cs : List Char) :
    Option (List Char × List Char) :=
  match cs with
  | '.' :: r =>
    match r.span Char.isDigit with
    | ([], _) => none
    | (ds, r2) => parseExpPart (lex ++ '.' :: ds) r2
  | _ => parseExpPart lex cs

/-- A JSON number: optional minus, integer part without leading zeros,
optional fraction, optional exponent.  Returns the lexeme and rest. -/
def parseNumber (cs : List Char) : Option (List Char × List Char) :=
  let (sgn, cs1) := match cs with
    | '-' :: r => (['-'], r)
    | _ => (([] : List Char), cs)
  match cs1 with
  | '0' :: r => parseFracExp (sgn ++ ['0']) r
  | c :: r =>
    if c.isDigit then
      match r.span Char.isDigit with
      | (ds, r2) => parseFracExp (sgn ++ c :: ds) r2
    else none
  | [] => none

inductive PMode where
  | value : PMode
  | arrElems : PMode
  | objMembers : PMode

inductive PRes where
  | val (j : Json) : PRes
  | elems (l : List Json) : PRes
  | members (l : List (String × Json)) : PRes

/-- Recursive core of the JSON parser; fuel bounds the recursion depth
and is chosen large enough in jsonParse for any input. -/
def parseP : Nat → PMode → List Char → Option (PRes × List Char)
  | 0, _, _ => none
  | Nat.succ fuel, PMode.value, cs =>
    match cs with
    | [] => none
    | 't' :: 'r' :: 'u' :: 'e' :: rest => some (PRes.val (Json.bool true), rest)
    | 'f' :: 'a' :: 'l' :: 's' :: 'e' :: rest => some (PRes.val (Json.bool false), rest)
    | 'n' :: 'u' :: 'l' :: 'l' :: rest => some (PRes.val Json.null, rest)
    | 'N' :: 'a' :: 'N' :: rest => some (PRes.val (Json.num "NaN"), rest)
    | 'I' :: 'n' :: 'f' :: 'i' :: 'n' :: 'i' :: 't' :: 'y' :: rest =>
      some (PRes.val (Json.num "Infinity"), rest)
    | '-' :: 'I' :: 'n' :: 'f' :: 'i' :: 'n' :: 'i' :: 't' :: 'y' :: rest =>
      some (PRes.val (Json.num "-Infinity"), rest)
    | '[' :: rest =>
      let rest1 := skipWs rest
      match rest1 with
      | ']' :: r2 => some (PRes.val (Json.arr []), r2)
      | _ =>
        match parseP fuel PMode.arrElems rest1 with
        | some (PRes.elems es, r2) => some (PRes.val (Json.arr es), r2)
        | _ => none
    | c :: rest =>
      if c = dquoteChar then
        match parseStringBody (rest.length + 1) rest [] with
        | some (s, r2) => some (PRes.val (Json.str s), r2)
        | none => none
      else if c = lbraceChar then
        let rest1 := skipWs rest
        match rest1 with
        | c2 :: r2 =>
          if c2 = rbraceChar then some (PRes.val (Json.obj []), r2)
          else
            match parseP fuel PMode.objMembers rest1 with
            | some (PRes.members ms, r3) => some (PRes.val (Json.obj ms), r3)
            | _ => none
        | [] => none
      else
        match parseNumber (c :: rest) with
        | some (lex, r2) => some (PRes.val (Json.num (String.mk lex)), r2)
        | none => none
  | Nat.succ fuel, PMode.arrElems, cs =>
    match parseP fuel PMode.value cs with
    | some (PRes.val v, r) =>
      let r1 := skipWs r
      match r1 with
      | ',' :: r2 =>
        match parseP fuel PMode.arrElems (skipWs r2) with
        | some (PRes.elems es, r3) => some (PRes.elems (v :: es), r3)
        | _ => none
      | ']' :: r2 => some (PRes.elems [v], r2)
      | _ => none
    | _ => none
  | Nat.succ fuel, PMode.objMembers, cs =>
    match cs with
    | c :: rest =>
      if c = dquoteChar then
        match parseStringBody (rest.length + 1) rest [] with
        | some (k, r) =>
          let r1 := skipWs r
          match r1 with
          | ':' :: r2 =>
            match parseP fuel PMode.value (skipWs r2) with
            | some (PRes.val v, r3) =>
              let r4 := skipWs r3
              match r4 with
              | ',' :: r5 =>
                match parseP fuel PMode.objMembers (skipWs r5) with
                | some (PRes.members ms, r6) =>
                  some (PRes.members ((k, v) :: ms), r6)
                | _ => none
              | c4 :: r5 =>
                if c4 = rbraceChar then some (PRes.members [(k, v)], r5)
                else none
              | [] => none
            | _ => none
          | _ => none
        | none => none
      else none
    | [] => none

/-- Model of Python json.loads: parse a complete JSON document,
allowing surrounding whitespace; none models a JSONDecodeError. -/
def jsonParse (s : String) : Option Json :=
  let cs := skipWs s.data
  match parseP (2 * s.data.length + 8) PMode.value cs with
  | some (PRes.val v, rest) => if skipWs rest = [] then some v else none
  | _ => none

/-! ## load_conf_list -/

/-- Python s.replace applied to the single-character pattern: replace
every single quote by a double quote. -/
def replaceSq (s : String) : String :=
  String.mk (s.data.map (fun c => if c = squoteChar then dquoteChar else c))

/-- Python s.split on a comma: every comma splits, empty pieces kept,
and the empty string yields one empty piece. -/
def splitOnComma : List Char → List (List Char)
  | [] => [[]]
  | c :: rest =>
    if c = ',' then [] :: splitOnComma rest
    else
      match splitOnComma rest with
      | p :: ps => (c :: p) :: ps
      | [] => [[c]]

/-- Whitespace stripped by Python str.strip on ASCII data. -/
def pyWsChar (c : Char) : Bool :=
  c = ' ' || c = '\t' || c = '\n' || c = '\r' || c = Char.ofNat 11 || c = Char.ofNat 12

def pyStrip (cs : List Char) : List Char :=
  ((cs.dropWhile pyWsChar).reverse.dropWhile pyWsChar).reverse

/-- load_conf_list: replace single quotes by double quotes and try
json.loads; on a decode error, split the raw string on commas and strip
each piece.  The left summand is the undecoded json.loads result (any
JSON value), the right summand the comma-split fallback. -/
def load_conf_list (s : String) : Json ⊕ List String :=
  match jsonParse (replaceSq s) with
  | some v => Sum.inl v
  | none => Sum.inr ((splitOnComma s.data).map (fun p => String.mk (pyStrip p)))

/-! ## Filesystem and environment model

The filesystem is the set of existing directories and existing
non-directory files, together with two static predicates saying on
which paths os.makedirs and Path.touch raise an access error.  The
environment is a partial map from variable names to values; a set
variable may hold the empty string. -/

structure FS where
  dirs : List String
  files : List String
  mkdirFail : String → Bool
  touchFail : String → Bool

def FS.existsB (fs : FS) (p : String) : Bool :=
  fs.dirs.contains p || fs.files.contains p

def FS.isDirB (fs : FS) (p : String) : Bool :=
  fs.dirs.contains p

/-- os.makedirs(p, exist_ok=True): succeeds if p is already a
directory, fails if p exists as a non-directory, fails on an access
error, otherwise creates the directory. -/
def FS.makedirs (fs : FS) (p : String) : Option FS :=
  if fs.dirs.contains p then some fs
  else if fs.files.contains p then none
  else if fs.mkdirFail p then none
  else some { fs with dirs := p :: fs.dirs }

/-- Path.touch(p): creates (or updates) the file p, or fails with an
access error. -/
def FS.touch (fs : FS) (p : String) : Option FS :=
  if fs.touchFail p then none else some { fs with files := p :: fs.files }

abbrev EnvMap := String → Option String

/-- os.path.join for two POSIX path components. -/
def pathJoin (a b : String) : String :=
  let bAbs := match b.data with
    | '/' :: _ => true
    | _ => false
  if bAbs then b
  else if a = "" then b
  else
    match a.data.getLast? with
    | some '/' => a ++ b
    | _ => a ++ "/" ++ b

/-! ## TempDirManager (RVConfig.set_tmp_dir and the tmp_dir state) -/

def DEFAULT_DIR : String := "/opt/data/tmp/"

def DEFAULT_PROFILE : String := "default"

/-- The process-wide temp-dir state: the filesystem plus the class
variable RVConfig.tmp_dir (None when unset). -/
structure TmpState where
  fs : FS
  tmpDir : Option String

/-- Candidate selection of set_tmp_dir: the explicit argument, the
values of the temp environment variables that are set (even if set to
the empty string), and the cached root are collected in order; entries
that are None are dropped; the first remaining entry wins, and if none
remains the freshly generated platform temp path is used. -/
def selectCandidate (env : EnvMap) (arg : Option String)
    (cached : Option String) (tempName : String) : String :=
  let tmp_dir_array := [arg]
  let env_array := (["TMPDIR", "TEMP", "TMP"].filterMap env).map some
  let current_array := [cached]
  let it := (tmp_dir_array ++ env_array ++ current_array).filterMap id
  match it with
  | x :: _ => x
  | [] => tempName

/-- The try block of set_tmp_dir: create the candidate if it does not
exist, check it is a directory, and write-probe it by touching a
.can_touch marker inside it.  Returns the filesystem state after the
attempt and whether an exception was caught. -/
def tryValidate (fs : FS) (d : String) : FS × Bool :=
  match (if fs.existsB d then some fs else fs.makedirs d) with
  | none => (fs, true)
  | some fs1 =>
    if !(fs1.isDirB d) then (fs1, true)
    else
      match fs1.touch (pathJoin d ".can_touch") with
      | none => (fs1, true)
      | some fs2 => (fs2, false)

/-- The finally block of set_tmp_dir: os.makedirs(tmp_dir,
exist_ok=True); a failure here propagates to the caller. -/
def makedirsFinally (fs : FS) (p : String) : FS × Bool :=
  match fs.makedirs p with
  | some fs1 => (fs1, false)
  | none => (fs, true)

/-- RVConfig.set_tmp_dir: selects a candidate, validates it, falls back
to DEFAULT_DIR on a validation failure, and unconditionally runs the
final creation step.  The Bool is true when the call raises to the
caller (only possible from the final creation step); the tmp_dir state
is assigned before that step in either branch. -/
def set_tmp_dir (env : EnvMap) (tempName : String) (arg : Option String)
    (st : TmpState) : TmpState × Bool :=
  let explicit_tmp_dir := selectCandidate env arg st.tmpDir tempName
  let v := tryValidate st.fs explicit_tmp_dir
  let newTmp := if v.2 then DEFAULT_DIR else explicit_tmp_dir
  let fin := makedirsFinally v.1 newTmp
  ({ fs := fin.1, tmpDir := some newTmp }, fin.2)

/-- Whether a directory is writable, in the sense probed by the
.can_touch marker of set_tmp_dir. -/
def writableB (fs : FS) (d : String) : Bool :=
  !(fs.touchFail (pathJoin d ".can_touch"))

/-! ## Verbosity and logging

Modelled from the spec: VerbosityLevel is an ordered enumeration; the
verbosity module itself is not among the given sources. -/

inductive Verbosity where
  | quiet : Verbosity
  | normal : Verbosity
  | verbose : Verbosity
  | veryVerbose : Verbosity
deriving DecidableEq

def Verbosity.toNat : Verbosity → Nat
  | .quiet => 0
  | .normal => 1
  | .verbose => 2
  | .veryVerbose => 3

inductive LogLevel where
  | debug : LogLevel
  | info : LogLevel
  | warn : LogLevel
deriving DecidableEq

/-- The logging threshold applied by reset: verbosity at least VERBOSE
gives debug, at least NORMAL gives info, anything lower warning. -/
def logLevelFor (v : Verbosity) : LogLevel :=
  if Verbosity.verbose.toNat ≤ v.toNat then LogLevel.debug
  else if Verbosity.normal.toNat ≤ v.toNat then LogLevel.info
  else LogLevel.warn

/-! ## RVConfig.reset -/

/-- Errors that can cross the reset boundary: the ConfigurationNotFound
error of _discover_config_file_locations, carrying the requested
profile and the full pre-filter candidate list, or an OS error escaping
the final creation step of set_tmp_dir. -/
inductive RVErr where
  | configurationNotFound (profile : String) (checked : List String) : RVErr
  | osError (path : String) : RVErr
deriving DecidableEq

/-- The pre-filter candidate list of _discover_config_file_locations:
the RV_CONFIG path when that variable is set non-empty, then the
profile file under RV_CONFIG_DIR (or rv_home when that variable is not
set non-empty), then .rastervision under the current directory. -/
def configFileCandidates (env : EnvMap) (cwd rvHome profile : String) :
    List String :=
  let fromEnvFile := match env "RV_CONFIG" with
    | some p => if p ≠ "" then [p] else []
    | none => []
  let profileFile := match env "RV_CONFIG_DIR" with
    | some d => if d ≠ "" then pathJoin d profile else pathJoin rvHome profile
    | none => pathJoin rvHome profile
  fromEnvFile ++ [profileFile] ++ [pathJoin cwd ".rastervision"]

/-- Python any() on a list of strings: true when some element is
truthy, that is, non-empty. -/
def pyAnyStr (l : List String) : Bool :=
  l.any (fun x => x != "")

/-- RVConfig._discover_config_file_locations: keep the candidates that
exist; raise when the kept list has no truthy entry and the profile is
not the default profile. -/
def discoverConfigFileLocations (env : EnvMap) (fs : FS)
    (cwd rvHome profile : String) : Except RVErr (List String) :=
  let result := configFileCandidates env cwd rvHome profile
  let results_that_exist := result.filter fs.existsB
  if !(pyAnyStr results_that_exist) && (profile != DEFAULT_PROFILE) then
    Except.error (RVErr.configurationNotFound profile result)
  else Except.ok results_that_exist

/-- The process-wide state reset acts on: the logging threshold, the
RVConfig.tmp_dir class variable, the filesystem, the OS environment,
the user home directory, the current working directory, and the next
name the platform temp-path generator would produce. -/
structure World where
  logLevel : LogLevel
  tmpDir : Option String
  fs : FS
  env : EnvMap
  userHome : String
  cwd : String
  tempName : String

/-- The data reset stores on success: verbosity, rv_home, the override
map and the discovered config file locations (the sources of the
ConfigManager, in precedence order). -/
structure RVConfigData where
  verbosity : Verbosity
  rv_home : String
  overrides : String → String → Option String
  locations : List String

/-- The profile resolved by reset: the argument when given, else a
truthy RV_PROFILE environment value, else the default profile. -/
def resolvedProfile (pArg : Option String) (env : EnvMap) : String :=
  match pArg with
  | some p => p
  | none =>
    match env "RV_PROFILE" with
    | some v => if v ≠ "" then v else DEFAULT_PROFILE
    | none => DEFAULT_PROFILE

/-- The rv_home resolved by reset: the argument when given, else
.rastervision under the user home directory. -/
def resolvedRvHome (hArg : Option String) (userHome : String) : String :=
  match hArg with
  | some h => h
  | none => pathJoin userHome ".rastervision"

/-- The tmp_dir step of reset: set_tmp_dir is invoked only when a
tmp_dir argument was supplied. -/
def resetTmpStep (tmpDirArg : Option String) (w : World) : World × Bool :=
  match tmpDirArg with
  | none => (w, false)
  | some t =>
    let r := set_tmp_dir w.env w.tempName (some t) ⟨w.fs, w.tmpDir⟩
    ({ w with fs := r.1.fs, tmpDir := r.1.tmpDir }, r.2)

/-- RVConfig.reset: set the logging threshold, forward a supplied
tmp_dir to set_tmp_dir, resolve profile, overrides and rv_home, and
discover the config file locations; a ConfigurationNotFound error from
discovery propagates after those side effects. -/
def reset (pArg hArg : Option String)
    (ovArg : Option (String → String → Option String))
    (tArg : Option String) (verbosity : Verbosity) (w : World) :
    World × Except RVErr RVConfigData :=
  let w1 : World := { w with logLevel := logLevelFor verbosity }
  let ts := resetTmpStep tArg w1
  if ts.2 then (ts.1, Except.error (RVErr.osError (ts.1.tmpDir.getD ""))) else
  let w2 := ts.1
  let profile := resolvedProfile pArg w2.env
  let overrides := ovArg.getD (fun _ _ => none)
  let rv_home := resolvedRvHome hArg w2.userHome
  match discoverConfigFileLocations w2.env w2.fs w2.cwd rv_home profile with
  | Except.error e => (w2, Except.error e)
  | Except.ok locs => (w2, Except.ok ⟨verbosity, rv_home, overrides, locs⟩)

/-! ## Layered key lookup

Modelled from the spec: the layered key-value engine behind
ConfigManager is a black box holding an ordered list of sources; key
lookup within a namespace returns the first source in precedence order
that defines the key, and otherwise the caller-supplied default or an
undefined result.  reset instantiates it with the override map first,
the OS environment second and the discovered file locations last. -/

abbrev SourceFn := String → String → Option String

def layeredLookup : List SourceFn → String → String → Option String
  | [], _, _ => none
  | s :: rest, ns, key =>
    match s ns key with
    | some v => some v
    | none => layeredLookup rest ns key

inductive LookupResult where
  | value (v : String) : LookupResult
  | fromDefault (v : String) : LookupResult
  | undefined : LookupResult
deriving DecidableEq

/-- Namespace-scoped lookup with an optional caller default: a defined
key yields its value from the first defining source, an undefined key
the default when one was supplied and the undefined result otherwise;
never an error. -/
def lookupWith (sources : List SourceFn) (ns key : String)
    (d : Option String) : LookupResult :=
  match layeredLookup sources ns key with
  | some v => LookupResult.value v
  | none =>
    match d with
    | some dv => LookupResult.fromDefault dv
    | none => LookupResult.undefined

/-- Calling a namespaced view with a string default, as
get_plugin_modules does. -/
def callWithDefault (sources : List SourceFn) (ns key dflt : String) :
    String :=
  (layeredLookup sources ns key).getD dflt

/-- The OS-environment source: a namespaced key is looked up as the
variable namespace_key. -/
def envSource (env : EnvMap) : SourceFn :=
  fun ns key => env (ns ++ "_" ++ key)

/-- The source order fixed by reset: override map, OS environment, the
discovered file locations in discovery order. -/
def rvSources (overrides : SourceFn) (env : EnvMap)
    (files : List SourceFn) : List SourceFn :=
  overrides :: envSource env :: files

/-! ## get_plugin_modules and get_config_dict -/

/-- RVConfig.get_plugin_modules: the PLUGINS.modules value (an everett
namespaced view object is always truthy, so the namespace guard of the
source never fails) with default empty string; an empty value yields
the empty list, otherwise load_conf_list is applied. -/
def get_plugin_modules (sources : List SourceFn) : Json ⊕ List String :=
  let plugin_modules := callWithDefault sources "PLUGINS" "modules" ""
  if plugin_modules ≠ "" then load_conf_list plugin_modules
  else Sum.inr []

/-- Whether a load_conf_list result is an ordered sequence of strings:
the comma-split fallback always is; a decoded JSON value only when it
is an array of strings. -/
def isStringSeq : Json ⊕ List String → Bool
  | Sum.inr _ => true
  | Sum.inl (Json.arr es) =>
    es.all (fun j => match j with
      | Json.str _ => true
      | _ => false)
  | Sum.inl _ => false

/-- Python dict assignment d[k] = v: replaces the value of an existing
key in place, otherwise appends the binding. -/
def dictInsert (d : List (String × LookupResult)) (k : String)
    (v : LookupResult) : List (String × LookupResult) :=
  if d.any (fun p => p.1 == k) then
    d.map (fun p => if p.1 == k then (k, v) else p)
  else d ++ [(k, v)]

def dictFind (d : List (String × LookupResult)) (k : String) :
    Option LookupResult :=
  (d.find? (fun p => p.1 == k)).map (fun p => p.2)

/-- RVConfig.get_config_dict: for every namespace and key of the
schema, store the namespaced lookup (no default supplied) under the
key namespace_key. -/
def get_config_dict (sources : List SourceFn)
    (schema : List (String × List String)) :
    List (String × LookupResult) :=
  schema.foldl
    (fun d nk =>
      nk.2.foldl
        (fun d key =>
          dictInsert d (nk.1 ++ "_" ++ key) (lookupWith sources nk.1 key none))
        d)
    []

/-- The composed dictionary keys of a schema. -/
def composedKeys (schema : List (String × List String)) : List String :=
  schema.flatMap (fun p => p.2.map (fun k => p.1 ++ "_" ++ k))

/-- The mapping described by the spec for GetConfigDict: one pair per
(namespace, key) of the schema, in order, with the looked-up value. -/
def configPairs (sources : List SourceFn)
    (schema : List (String × List String)) :
    List (String × LookupResult) :=
  schema.flatMap
    (fun p => p.2.map (fun k => (p.1 ++ "_" ++ k, lookupWith sources p.1 k none)))

/-! ## Observations used to state the claims -/

def exceptIsOk {ε α : Type} : Except ε α → Bool
  | Except.ok _ => true
  | Except.error _ => false

def isConfigNotFound {α : Type} : Except RVErr α → Bool
  | Except.error (RVErr.configurationNotFound _ _) => true
  | _ => false

/-- The temp-dir invariant asserted by the spec: the state is unset or
points to a directory that exists and is writable. -/
def tmpInvariantB (st : TmpState) : Bool :=
  match st.tmpDir with
  | none => true
  | some d => st.fs.existsB d && writableB st.fs d

/-- States reachable from a given temp-dir state by any sequence of
set_tmp_dir calls (with arbitrary arguments, environments and platform
temp names). -/
inductive TmpReach : TmpState → TmpState → Prop where
  | refl (st : TmpState) : TmpReach st st
  | step (st st1 : TmpState) (env : EnvMap) (tn : String) (arg : Option String) :
      TmpReach st st1 → TmpReach st (set_tmp_dir env tn arg st1).1

/-! ## Concrete fixtures for witnesses and counterexamples -/

def envNone : EnvMap := fun _ => none

def envTmpX : EnvMap := fun k => if k = "TMPDIR" then some "/x" else none

/-- A filesystem on which every mkdir and every touch fails. -/
def fsAllFail : FS := ⟨[], [], fun _ => true, fun _ => true⟩

/-- A filesystem with two existing directories on which every touch
fails (for instance a read-only mount). -/
def fsTouchFail : FS := ⟨["/bad", DEFAULT_DIR], [], fun _ => false, fun _ => true⟩

/-- A filesystem on which everything succeeds. -/
def fsOk : FS := ⟨[], [], fun _ => false, fun _ => false⟩

/-- A filesystem on which only creating /bad fails. -/
def fsBadOnly : FS := ⟨[], [], fun p => p == "/bad", fun _ => false⟩

def w0 : World :=
  { logLevel := LogLevel.warn, tmpDir := none, fs := fsOk, env := envNone,
    userHome := "/home/u", cwd := "/cwd", tempName := "/gen9" }

def ovFOO : SourceFn :=
  fun ns key => if ns = "FOO" then (if key = "bar" then some "1" else none) else none

def envFOO : EnvMap := fun k => if k = "FOO_bar" then some "2" else none

def fileFOO : SourceFn :=
  fun ns key => if ns = "FOO" then (if key = "bar" then some "3" else none) else none

def srcsNum : List SourceFn :=
  [fun ns key => if ns = "PLUGINS" then (if key = "modules" then some "3" else none) else none]

def srcsAB : List SourceFn :=
  [fun ns key => if ns = "PLUGINS" then (if key = "modules" then some "a,b" else none) else none]

def schemaFOO : List (String × List String) := [("FOO", ["bar", "baz"])]

/-! ## Helper lemmas -/

theorem resetTmpStep_logLevel (t : Option String) (w : World) :
    (resetTmpStep t w).1.logLevel = w.logLevel := by
  cases t <;> rfl

theorem resetTmpStep_env (t : Option String) (w : World) :
    (resetTmpStep t w).1.env = w.env := by
  cases t <;> rfl

theorem resetTmpStep_cwd (t : Option String) (w : World) :
    (resetTmpStep t w).1.cwd = w.cwd := by
  cases t <;> rfl

theorem resetTmpStep_userHome (t : Option String) (w : World) :
    (resetTmpStep t w).1.userHome = w.userHome := by
  cases t <;> rfl

theorem makedirs_exists {fs fs1 : FS} {p : String}
    (h : fs.makedirs p = some fs1) : fs1.existsB p = true := by
  unfold FS.makedirs at h
  split at h
  · cases h
    simp_all [FS.existsB]
  · split at h
    · cases h
    · split at h
      · cases h
      · cases h
        simp [FS.existsB]

/-! ## Claim C3 -/

/-- Claim C3 counterexample: with an explicit empty-string argument and
TMPDIR set to /x, the code selects the empty string: empty candidates
are not skipped (only absent ones are), so the later candidate /x is
not used. -/
theorem selectCandidate_empty_used_cex :
    selectCandidate envTmpX (some "") none "/gen" = "" ∧
    selectCandidate envTmpX (some "") none "/gen" ≠ "/x" := by
  decide

/-- Claim C3 (amended): set_tmp_dir selects its candidate by trying, in
order, until one is present (not None; empty strings are not skipped):
the explicit argument, then the value of the first of TMPDIR, TEMP, TMP
that is set in the environment, then the cached root if set, and
otherwise the freshly generated platform temp path. -/
theorem selectCandidate_first_present (env : EnvMap) (arg cached : Option String)
    (tn : String) :
    (∀ a, arg = some a → selectCandidate env arg cached tn = a) ∧
    (arg = none → ∀ v, env "TMPDIR" = some v →
      selectCandidate env arg cached tn = v) ∧
    (arg = none → env "TMPDIR" = none → ∀ v, env "TEMP" = some v →
      selectCandidate env arg cached tn = v) ∧
    (arg = none → env "TMPDIR" = none → env "TEMP" = none →
      ∀ v, env "TMP" = some v → selectCandidate env arg cached tn = v) ∧
    (arg = none → env "TMPDIR" = none → env "TEMP" = none → env "TMP" = none →
      ∀ c, cached = some c → selectCandidate env arg cached tn = c) ∧
    (arg = none → env "TMPDIR" = none → env "TEMP" = none → env "TMP" = none →
      cached = none → selectCandidate env arg cached tn = tn) := by
  refine ⟨?_, ?_, ?_, ?_, ?_, ?_⟩
  · intro a ha
    subst ha
    simp [selectCandidate]
  · intro ha v hv
    subst ha
    simp [selectCandidate, hv]
  · intro ha h1 v hv
    subst ha
    simp [selectCandidate, h1, hv]
  · intro ha h1 h2 v hv
    subst ha
    simp [selectCandidate, h1, h2, hv]
  · intro ha h1 h2 h3 c hc
    subst ha
    subst hc
    simp [selectCandidate, h1, h2, h3]
  · intro ha h1 h2 h3 hc
    subst ha
    subst hc
    simp [selectCandidate, h1, h2, h3]

/-- Witness for C3's amended theorem: with no explicit argument and
TMPDIR set to /x, the selected candidate is /x. -/
theorem selectCandidate_first_present_witness :
    envTmpX "TMPDIR" = some "/x" ∧
    selectCandidate envTmpX none none "/gen" = "/x" :=
  ⟨rfl, (selectCandidate_first_present envTmpX none none "/gen").2.1 rfl "/x" rfl⟩

/-! ## Claim C5 -/

/-- Claim C5: load_conf_list replaces every single quote by a double
quote and attempts a JSON parse of the result; when this parse fails it
splits the raw original string on commas and strips each piece; and in
particular the two example inputs of the spec produce the stated
lists. -/
theorem load_conf_list_spec :
    (∀ s v, jsonParse (replaceSq s) = some v → load_conf_list s = Sum.inl v) ∧
    (∀ s, jsonParse (replaceSq s) = none →
      load_conf_list s =
        Sum.inr ((splitOnComma s.data).map (fun p => String.mk (pyStrip p)))) ∧
    load_conf_list "['a', 'b']" = Sum.inl (Json.arr [Json.str "a", Json.str "b"]) ∧
    load_conf_list "a, b ,c" = Sum.inr ["a", "b", "c"] := by
  refine ⟨?_, ?_, rfl, rfl⟩
  · intro s v h
    simp [load_conf_list, h]
  · intro s h
    simp [load_conf_list, h]

/-- Witness for C5: a string that is not JSON after quote replacement
falls back to the comma split. -/
theorem load_conf_list_spec_witness :
    jsonParse (replaceSq "x; y") = none ∧
    load_conf_list "x; y" =
      Sum.inr ((splitOnComma "x; y".data).map (fun p => String.mk (pyStrip p))) :=
  ⟨rfl, load_conf_list_spec.2.1 "x; y" rfl⟩

/-! ## Claim C8 -/

/-- Claim C8: on every reset the global logging threshold becomes a
function of the verbosity alone, on every control path: at least
VERBOSE gives debug, at least NORMAL gives info, lower gives
warning. -/
theorem reset_sets_log_level (pArg hArg : Option String)
    (ovArg : Option (String → String → Option String)) (tArg : Option String)
    (v : Verbosity) (w : World) :
    (reset pArg hArg ovArg tArg v w).1.logLevel = logLevelFor v ∧
    (Verbosity.verbose.toNat ≤ v.toNat → logLevelFor v = LogLevel.debug) ∧
    (¬ Verbosity.verbose.toNat ≤ v.toNat → Verbosity.normal.toNat ≤ v.toNat →
      logLevelFor v = LogLevel.info) ∧
    (¬ Verbosity.normal.toNat ≤ v.toNat → logLevelFor v = LogLevel.warn) := by
  refine ⟨?_, ?_, ?_, ?_⟩
  · simp only [reset]
    split
    · rw [resetTmpStep_logLevel]
    · split <;> rw [resetTmpStep_logLevel]
  · intro h
    simp [logLevelFor, h]
  · intro h1 h2
    simp [logLevelFor, h1, h2]
  · intro h
    have h2 : ¬ Verbosity.verbose.toNat ≤ v.toNat := by
      intro hc
      exact h (le_trans (by decide) hc)
    simp [logLevelFor, h, h2]

/-- Witness for C8 at maximal verbosity: reset leaves the threshold at
debug. -/
theorem reset_sets_log_level_witness :
    Verbosity.verbose.toNat ≤ Verbosity.veryVerbose.toNat ∧
    logLevelFor Verbosity.veryVerbose = LogLevel.debug ∧
    (reset none none none none Verbosity.veryVerbose w0).1.logLevel =
      logLevelFor Verbosity.veryVerbose :=
  ⟨by decide,
   (reset_sets_log_level none none none none Verbosity.veryVerbose w0).2.1 (by decide),
   (reset_sets_log_level none none none none Verbosity.veryVerbose w0).1⟩

/-! ## Claim C2 -/

/-- Claim C2 counterexample: on a filesystem where every mkdir fails,
set_tmp_dir with an explicit candidate raises to the caller (the
unconditional final creation of the fallback root itself fails), and
the fallback directory does not exist on disk on return. -/
theorem set_tmp_dir_raises_cex :
    (set_tmp_dir envNone "/gen" (some "/bad") ⟨fsAllFail, none⟩).2 = true ∧
    (set_tmp_dir envNone "/gen" (some "/bad") ⟨fsAllFail, none⟩).1.fs.existsB
      DEFAULT_DIR = false := by
  decide

/-- Claim C2 (amended): every failure to create, validate or
write-probe the candidate directory is absorbed by falling back to the
fixed default root; set_tmp_dir raises to the caller only when the
unconditional final creation step for the resolved (or fallback)
directory itself fails, and whenever it does not raise, the resolved
(or fallback) directory exists on disk before the call returns. -/
theorem set_tmp_dir_total_spec (env : EnvMap) (tn : String) (arg : Option String)
    (st : TmpState) :
    (set_tmp_dir env tn arg st).1.tmpDir =
      some (if (tryValidate st.fs (selectCandidate env arg st.tmpDir tn)).2 then
        DEFAULT_DIR else selectCandidate env arg st.tmpDir tn) ∧
    ((tryValidate st.fs (selectCandidate env arg st.tmpDir tn)).2 = true →
      (set_tmp_dir env tn arg st).1.tmpDir = some DEFAULT_DIR) ∧
    ((set_tmp_dir env tn arg st).2 = false →
      ∃ d, (set_tmp_dir env tn arg st).1.tmpDir = some d ∧
        (set_tmp_dir env tn arg st).1.fs.existsB d = true) ∧
    ((set_tmp_dir env tn arg st).2 = true →
      (makedirsFinally (tryValidate st.fs (selectCandidate env arg st.tmpDir tn)).1
        (if (tryValidate st.fs (selectCandidate env arg st.tmpDir tn)).2 then
          DEFAULT_DIR else selectCandidate env arg st.tmpDir tn)).2 = true) := by
  refine ⟨rfl, ?_, ?_, ?_⟩
  · intro h
    simp [set_tmp_dir, h]
  · intro h
    refine ⟨if (tryValidate st.fs (selectCandidate env arg st.tmpDir tn)).2 then
      DEFAULT_DIR else selectCandidate env arg st.tmpDir tn, rfl, ?_⟩
    simp only [set_tmp_dir] at h ⊢
    unfold makedirsFinally at h ⊢
    split at h
    · next heq =>
      exact makedirs_exists heq
    · cases h
  · intro h
    exact h

/-- Witness for C2's amended theorem: a failing candidate with a
creatable default root is absorbed into the fallback, and the call does
not raise. -/
theorem set_tmp_dir_total_spec_witness :
    (tryValidate fsBadOnly (selectCandidate envNone (some "/bad") none "/gen")).2 = true ∧
    (set_tmp_dir envNone "/gen" (some "/bad") ⟨fsBadOnly, none⟩).1.tmpDir =
      some DEFAULT_DIR ∧
    (set_tmp_dir envNone "/gen" (some "/bad") ⟨fsBadOnly, none⟩).2 = false :=
  ⟨by decide,
   (set_tmp_dir_total_spec envNone "/gen" (some "/bad") ⟨fsBadOnly, none⟩).2.1 (by decide),
   by decide⟩

/-! ## Claim C9 -/

/-- Claim C9 counterexample: from a state satisfying the claimed
invariant, one set_tmp_dir call on a filesystem whose directories exist
but reject the write probe leaves the state pointing at the fixed
default root, which is not writable at the moment it is set: the
fallback is accepted without the write-probe. -/
theorem tmp_invariant_cex :
    tmpInvariantB ⟨fsTouchFail, none⟩ = true ∧
    tmpInvariantB (set_tmp_dir envNone "/gen2" (some "/bad") ⟨fsTouchFail, none⟩).1 =
      false := by
  decide

theorem tryValidate_ok {fs : FS} {d : String}
    (h : (tryValidate fs d).2 = false) :
    (tryValidate fs d).1.existsB d = true ∧
    (tryValidate fs d).1.isDirB d = true ∧
    writableB (tryValidate fs d).1 d = true := by
  unfold tryValidate at h ⊢
  rcases hm : (if fs.existsB d then some fs else fs.makedirs d) with _ | fs1 <;>
    simp only [hm] at h ⊢
  · cases h
  · by_cases hdir : (!(fs1.isDirB d)) = true
    · simp only [hdir, if_true] at h
      cases h
    · have hdirb : fs1.isDirB d = true := by
        simpa using hdir
      rw [if_neg hdir] at h ⊢
      rcases ht : fs1.touch (pathJoin d ".can_touch") with _ | fs2 <;>
        simp only [ht] at h ⊢
      · cases h
      · unfold FS.touch at ht
        split at ht
        · cases ht
        · next htf =>
          cases ht
          simp only [Bool.not_eq_true] at htf
          have hmem : d ∈ fs1.dirs := by
            simpa [FS.isDirB] using hdirb
          refine ⟨?_, ?_, ?_⟩
          · simp [FS.existsB, hmem]
          · simpa [FS.isDirB] using hdirb
          · simp [writableB, htf]

/-- Claim C9 (amended): starting from an unset temp-dir state, after
any sequence of set_tmp_dir calls the state is either still unset, or
the fixed default root (accepted without the write probe), or it is the
post-state of a set_tmp_dir call from a reached state st2 whose
selected candidate passed validation there: on the filesystem of that
very call at validation time (the moment the path was last set), the
candidate existed, was a directory and passed the write probe. -/
theorem tmp_state_validated_or_default (st st1 : TmpState)
    (h0 : st.tmpDir = none) (h : TmpReach st st1) :
    st1.tmpDir = none ∨ st1.tmpDir = some DEFAULT_DIR ∨
    ∃ env tn arg st2, TmpReach st st2 ∧
      (set_tmp_dir env tn arg st2).1 = st1 ∧
      (tryValidate st2.fs (selectCandidate env arg st2.tmpDir tn)).2 = false ∧
      st1.tmpDir = some (selectCandidate env arg st2.tmpDir tn) ∧
      (tryValidate st2.fs (selectCandidate env arg st2.tmpDir tn)).1.existsB
        (selectCandidate env arg st2.tmpDir tn) = true ∧
      (tryValidate st2.fs (selectCandidate env arg st2.tmpDir tn)).1.isDirB
        (selectCandidate env arg st2.tmpDir tn) = true ∧
      writableB (tryValidate st2.fs (selectCandidate env arg st2.tmpDir tn)).1
        (selectCandidate env arg st2.tmpDir tn) = true := by
  induction h with
  | refl => exact Or.inl h0
  | step st1 env tn arg hreach _ =>
    cases hv : (tryValidate st1.fs (selectCandidate env arg st1.tmpDir tn)).2 with
    | true =>
      refine Or.inr (Or.inl ?_)
      simp [set_tmp_dir, hv]
    | false =>
      refine Or.inr (Or.inr ⟨env, tn, arg, st1, hreach, rfl, hv, ?_,
        (tryValidate_ok hv).1, (tryValidate_ok hv).2.1, (tryValidate_ok hv).2.2⟩)
      simp [set_tmp_dir, hv]

/-- Witness for C9's amended theorem: one successful call from an
unset state. -/
theorem tmp_state_validated_or_default_witness :
    (⟨fsOk, none⟩ : TmpState).tmpDir = none ∧
    ((set_tmp_dir envNone "/w9" none ⟨fsOk, none⟩).1.tmpDir = none ∨
     (set_tmp_dir envNone "/w9" none ⟨fsOk, none⟩).1.tmpDir = some DEFAULT_DIR ∨
     ∃ env tn arg st2, TmpReach ⟨fsOk, none⟩ st2 ∧
       (set_tmp_dir env tn arg st2).1 =
         (set_tmp_dir envNone "/w9" none ⟨fsOk, none⟩).1 ∧
       (tryValidate st2.fs (selectCandidate env arg st2.tmpDir tn)).2 = false ∧
       (set_tmp_dir envNone "/w9" none ⟨fsOk, none⟩).1.tmpDir =
         some (selectCandidate env arg st2.tmpDir tn) ∧
       (tryValidate st2.fs (selectCandidate env arg st2.tmpDir tn)).1.existsB
         (selectCandidate env arg st2.tmpDir tn) = true ∧
       (tryValidate st2.fs (selectCandidate env arg st2.tmpDir tn)).1.isDirB
         (selectCandidate env arg st2.tmpDir tn) = true ∧
       writableB (tryValidate st2.fs (selectCandidate env arg st2.tmpDir tn)).1
         (selectCandidate env arg st2.tmpDir tn) = true) :=
  ⟨rfl,
   tmp_state_validated_or_default ⟨fsOk, none⟩ _ rfl
     (TmpReach.step _ _ envNone "/w9" none (TmpReach.refl _))⟩

/-! ## Claim C4 -/

/-- Claim C4: with the source order fixed by reset, lookup of a
namespaced key returns the override value when the override map
defines it, else the environment value when the environment defines
the namespace_key variable, else the first defining discovered file
location in discovery order; when no source defines the key, the
caller-supplied default is returned when present and the undefined
result otherwise. -/
theorem layered_precedence (ov : SourceFn) (env : EnvMap)
    (files : List SourceFn) (ns key : String) :
    (∀ v, ov ns key = some v →
      layeredLookup (rvSources ov env files) ns key = some v) ∧
    (ov ns key = none → ∀ v, env (ns ++ "_" ++ key) = some v →
      layeredLookup (rvSources ov env files) ns key = some v) ∧
    (ov ns key = none → env (ns ++ "_" ++ key) = none →
      layeredLookup (rvSources ov env files) ns key =
        layeredLookup files ns key) ∧
    (layeredLookup (rvSources ov env files) ns key = none →
      (∀ d, lookupWith (rvSources ov env files) ns key (some d) =
        LookupResult.fromDefault d) ∧
      lookupWith (rvSources ov env files) ns key none =
        LookupResult.undefined) := by
  refine ⟨?_, ?_, ?_, ?_⟩
  · intro v hv
    simp [rvSources, layeredLookup, hv]
  · intro h0 v hv
    simp [rvSources, layeredLookup, envSource, h0, hv]
  · intro h0 h1
    simp [rvSources, layeredLookup, envSource, h0, h1]
  · intro h
    constructor
    · intro d
      simp [lookupWith, h]
    · simp [lookupWith, h]

/-- Witness for C4 at the spec's example: override FOO.bar = 1,
environment FOO_bar = 2, file FOO.bar = 3; lookup returns 1. -/
theorem layered_precedence_witness :
    ovFOO "FOO" "bar" = some "1" ∧
    layeredLookup (rvSources ovFOO envFOO [fileFOO]) "FOO" "bar" = some "1" :=
  ⟨rfl, (layered_precedence ovFOO envFOO [fileFOO] "FOO" "bar").1 "1" rfl⟩

/-! ## Claim C6 -/

/-- Claim C6 counterexample: a modules value that is valid JSON but not
an array of strings is returned as-is by get_plugin_modules, so the
result is not an ordered sequence of strings: with PLUGINS.modules set
to the string 3, the result is the JSON number 3. -/
theorem get_plugin_modules_nonstring_cex :
    get_plugin_modules srcsNum = Sum.inl (Json.num "3") ∧
    isStringSeq (get_plugin_modules srcsNum) = false :=
  ⟨rfl, rfl⟩

/-- Claim C6 (amended): get_plugin_modules returns the empty sequence
when the modules key is undefined (the empty-string default applies) or
resolves to the empty string, and otherwise returns the list-parsing
result applied to the value, preserving its order and duplicates; that
result is an ordered sequence of strings whenever the quote-replaced
value is not parseable as JSON, but is the raw decoded JSON value (not
necessarily a sequence of strings) when it is. -/
theorem get_plugin_modules_spec (sources : List SourceFn) :
    (layeredLookup sources "PLUGINS" "modules" = none →
      get_plugin_modules sources = Sum.inr []) ∧
    (layeredLookup sources "PLUGINS" "modules" = some "" →
      get_plugin_modules sources = Sum.inr []) ∧
    (∀ s, layeredLookup sources "PLUGINS" "modules" = some s → s ≠ "" →
      get_plugin_modules sources = load_conf_list s) ∧
    (∀ s, layeredLookup sources "PLUGINS" "modules" = some s → s ≠ "" →
      jsonParse (replaceSq s) = none →
      isStringSeq (get_plugin_modules sources) = true) := by
  refine ⟨?_, ?_, ?_, ?_⟩
  · intro h
    simp [get_plugin_modules, callWithDefault, h]
  · intro h
    simp [get_plugin_modules, callWithDefault, h]
  · intro s h hne
    simp [get_plugin_modules, callWithDefault, h, hne]
  · intro s h hne hj
    have h2 : get_plugin_modules sources = load_conf_list s := by
      simp [get_plugin_modules, callWithDefault, h, hne]
    rw [h2]
    simp [load_conf_list, hj, isStringSeq]

/-- Witness for C6's amended theorem: a defined comma-separated value
goes through load_conf_list and yields the split string list. -/
theorem get_plugin_modules_spec_witness :
    layeredLookup srcsAB "PLUGINS" "modules" = some "a,b" ∧
    get_plugin_modules srcsAB = load_conf_list "a,b" ∧
    load_conf_list "a,b" = Sum.inr ["a", "b"] :=
  ⟨rfl, (get_plugin_modules_spec srcsAB).2.2.1 "a,b" rfl (by decide), rfl⟩

/-! ## Claim C7 -/

theorem any_key_eq_false {d : List (String × LookupResult)} {k : String}
    (h : k ∉ d.map Prod.fst) :
    d.any (fun p => p.1 == k) = false := by
  rw [List.any_eq_false]
  intro p hp
  simp only [beq_iff_eq]
  intro hpk
  exact h (hpk ▸ List.mem_map_of_mem Prod.fst hp)

theorem dictInsert_fresh (d : List (String × LookupResult)) (k : String)
    (v : LookupResult) (h : k ∉ d.map Prod.fst) :
    dictInsert d k v = d ++ [(k, v)] := by
  simp [dictInsert, any_key_eq_false h]

theorem foldl_dictInsert_fresh (sources : List SourceFn) (ns : String)
    (keys : List String) (d : List (String × LookupResult))
    (h : ((d.map Prod.fst) ++ keys.map (fun k => ns ++ "_" ++ k)).Nodup) :
    keys.foldl
      (fun d key =>
        dictInsert d (ns ++ "_" ++ key) (lookupWith sources ns key none)) d =
    d ++ keys.map (fun k => (ns ++ "_" ++ k, lookupWith sources ns k none)) := by
  induction keys generalizing d with
  | nil => simp
  | cons k ks ih =>
    rw [List.foldl_cons]
    rw [dictInsert_fresh d (ns ++ "_" ++ k) (lookupWith sources ns k none) ?hfresh]
    case hfresh =>
      rw [List.nodup_append] at h
      intro hmem
      exact h.2.2 hmem (by simp)
    rw [ih (d ++ [(ns ++ "_" ++ k, lookupWith sources ns k none)]) ?hnd]
    case hnd =>
      simp only [List.map_append, List.map_cons, List.map_nil] at h ⊢
      simpa [List.append_assoc] using h
    simp

theorem get_config_dict_eq_aux (sources : List SourceFn)
    (schema : List (String × List String)) (d : List (String × LookupResult))
    (h : ((d.map Prod.fst) ++ composedKeys schema).Nodup) :
    schema.foldl
      (fun d nk =>
        nk.2.foldl
          (fun d key =>
            dictInsert d (nk.1 ++ "_" ++ key) (lookupWith sources nk.1 key none))
          d)
      d = d ++ configPairs sources schema := by
  induction schema generalizing d with
  | nil => simp [configPairs]
  | cons p ps ih =>
    rw [List.foldl_cons]
    have hassoc :
        ((d.map Prod.fst ++ p.2.map (fun k => p.1 ++ "_" ++ k)) ++
          composedKeys ps).Nodup := by
      simpa [composedKeys, List.append_assoc] using h
    have h1 : ((d.map Prod.fst) ++ p.2.map (fun k => p.1 ++ "_" ++ k)).Nodup :=
      List.Nodup.sublist (List.sublist_append_left _ _) hassoc
    rw [foldl_dictInsert_fresh sources p.1 p.2 d h1]
    have h2 :
        (((d ++ p.2.map
            (fun k => (p.1 ++ "_" ++ k, lookupWith sources p.1 k none))).map
              Prod.fst) ++ composedKeys ps).Nodup := by
      simpa [List.map_append, List.map_map, Function.comp, List.append_assoc]
        using hassoc
    rw [ih _ h2]
    simp [configPairs, List.append_assoc]

/-- Claim C7: get_config_dict stores, for every (namespace, key) pair
of the schema, the looked-up value under the dictionary key
namespace_key (assuming the composed keys are distinct, as the spec
notes), and an undefined key never throws: its resolved value is the
undefined sentinel, stored as-is. -/
theorem get_config_dict_spec (sources : List SourceFn)
    (schema : List (String × List String))
    (h : (composedKeys schema).Nodup) :
    get_config_dict sources schema = configPairs sources schema ∧
    (∀ ns key, layeredLookup sources ns key = none →
      lookupWith sources ns key none = LookupResult.undefined) := by
  constructor
  · have h0 :
        ((([] : List (String × LookupResult)).map Prod.fst) ++
          composedKeys schema).Nodup := by
      simpa using h
    simpa [get_config_dict] using get_config_dict_eq_aux sources schema [] h0
  · intro ns key h2
    simp [lookupWith, h2]

/-- Witness for C7 at the spec's example schema: only FOO.bar defined,
FOO_baz stored as the undefined sentinel, no error. -/
theorem get_config_dict_spec_witness :
    (composedKeys schemaFOO).Nodup ∧
    get_config_dict [ovFOO] schemaFOO = configPairs [ovFOO] schemaFOO ∧
    get_config_dict [ovFOO] schemaFOO =
      [("FOO_bar", LookupResult.value "1"), ("FOO_baz", LookupResult.undefined)] :=
  ⟨by decide, (get_config_dict_spec [ovFOO] schemaFOO (by decide)).1, by decide⟩

/-! ## Claims C1 and C10: discovery errors out of reset -/

theorem pyAny_filter (fs : FS) (l : List String)
    (h0 : fs.existsB "" = false) :
    pyAnyStr (l.filter fs.existsB) = false ↔ ∀ c ∈ l, fs.existsB c = false := by
  unfold pyAnyStr
  rw [List.any_eq_false]
  constructor
  · intro h c hc
    cases hb : fs.existsB c
    · rfl
    · exfalso
      have hmem : c ∈ l.filter fs.existsB := List.mem_filter.mpr ⟨hc, hb⟩
      have h1 := h c hmem
      have hcne : c ≠ "" := by
        intro he
        rw [he, h0] at hb
        cases hb
      exact h1 (by simpa using hcne)
  · intro h x hx
    rw [List.mem_filter] at hx
    have h1 := h x hx.1
    rw [h1] at hx
    exact absurd hx.2 (by simp)

theorem discover_spec (env : EnvMap) (fs : FS) (cwd rvHome profile : String)
    (h0 : fs.existsB "" = false) :
    (discoverConfigFileLocations env fs cwd rvHome profile =
        Except.error (RVErr.configurationNotFound profile
          (configFileCandidates env cwd rvHome profile)) ↔
      (profile ≠ DEFAULT_PROFILE ∧
       ∀ c ∈ configFileCandidates env cwd rvHome profile,
         fs.existsB c = false)) ∧
    (∀ e, discoverConfigFileLocations env fs cwd rvHome profile =
        Except.error e →
      e = RVErr.configurationNotFound profile
        (configFileCandidates env cwd rvHome profile)) ∧
    (profile = DEFAULT_PROFILE →
      discoverConfigFileLocations env fs cwd rvHome profile =
        Except.ok ((configFileCandidates env cwd rvHome profile).filter
          fs.existsB)) := by
  unfold discoverConfigFileLocations
  by_cases hcond :
      (!(pyAnyStr ((configFileCandidates env cwd rvHome profile).filter
        fs.existsB)) && (profile != DEFAULT_PROFILE)) = true
  · rw [if_pos hcond]
    rw [Bool.and_eq_true] at hcond
    obtain ⟨hp, hne⟩ := hcond
    refine ⟨?_, ?_, ?_⟩
    · constructor
      · intro _
        refine ⟨by simpa using hne, ?_⟩
        exact (pyAny_filter fs _ h0).mp (by simpa using hp)
      · intro _
        rfl
    · intro e he
      injection he with h1
      exact h1.symm
    · intro hdef
      rw [hdef] at hne
      simp at hne
  · rw [if_neg hcond]
    refine ⟨?_, ?_, ?_⟩
    · constructor
      · intro h
        exact Except.noConfusion h
      · rintro ⟨hne, hall⟩
        exfalso
        apply hcond
        rw [Bool.and_eq_true]
        refine ⟨?_, by simpa using hne⟩
        rw [Bool.not_eq_true']
        exact (pyAny_filter fs _ h0).mpr hall
    · intro e he
      exact Except.noConfusion he
    · intro _
      rfl

/-- When the tmp-dir step does not raise, reset reaches discovery: its
final state is the post-tmp-step state, an error from discovery
propagates unchanged, and a successful discovery yields the config
data. -/
theorem reset_outcome_tmp_ok (pArg hArg : Option String)
    (ovArg : Option (String → String → Option String)) (tArg : Option String)
    (v : Verbosity) (w : World)
    (htmp : (resetTmpStep tArg { w with logLevel := logLevelFor v }).2 = false) :
    (reset pArg hArg ovArg tArg v w).1 =
      (resetTmpStep tArg { w with logLevel := logLevelFor v }).1 ∧
    (∀ e, discoverConfigFileLocations w.env
        (resetTmpStep tArg { w with logLevel := logLevelFor v }).1.fs w.cwd
        (resolvedRvHome hArg w.userHome) (resolvedProfile pArg w.env) =
        Except.error e →
      (reset pArg hArg ovArg tArg v w).2 = Except.error e) ∧
    (∀ locs, discoverConfigFileLocations w.env
        (resetTmpStep tArg { w with logLevel := logLevelFor v }).1.fs w.cwd
        (resolvedRvHome hArg w.userHome) (resolvedProfile pArg w.env) =
        Except.ok locs →
      (reset pArg hArg ovArg tArg v w).2 =
        Except.ok ⟨v, resolvedRvHome hArg w.userHome,
          ovArg.getD (fun _ _ => none), locs⟩) := by
  have henv := resetTmpStep_env tArg { w with logLevel := logLevelFor v }
  have hcwd := resetTmpStep_cwd tArg { w with logLevel := logLevelFor v }
  have huh := resetTmpStep_userHome tArg { w with logLevel := logLevelFor v }
  refine ⟨?_, ?_, ?_⟩
  · simp only [reset, htmp]
    rw [if_neg (by simp)]
    split <;> rfl
  · intro e he
    simp only [reset, htmp]
    rw [if_neg (by simp)]
    rw [henv, hcwd, huh, he]
  · intro locs he
    simp only [reset, htmp]
    rw [if_neg (by simp)]
    rw [henv, hcwd, huh, he]

/-- Claim C1: assuming the tmp-dir step does not itself raise (it is
orthogonal to file discovery) and that the empty path does not exist on
the filesystem (as under os.path.exists), reset raises
ConfigurationNotFound exactly when the resolved profile is not the
default profile and no candidate config file location exists; the error
carries the resolved profile and the full pre-filter candidate list;
and for the default profile reset never fails due to missing files. -/
theorem reset_configurationNotFound_iff (pArg hArg : Option String)
    (ovArg : Option (String → String → Option String)) (tArg : Option String)
    (v : Verbosity) (w : World)
    (htmp : (resetTmpStep tArg { w with logLevel := logLevelFor v }).2 = false)
    (hempty : (resetTmpStep tArg
      { w with logLevel := logLevelFor v }).1.fs.existsB "" = false) :
    (isConfigNotFound (reset pArg hArg ovArg tArg v w).2 = true ↔
      (resolvedProfile pArg w.env ≠ DEFAULT_PROFILE ∧
       ∀ c ∈ configFileCandidates w.env w.cwd
           (resolvedRvHome hArg w.userHome) (resolvedProfile pArg w.env),
         (resetTmpStep tArg
           { w with logLevel := logLevelFor v }).1.fs.existsB c = false)) ∧
    (∀ e, (reset pArg hArg ovArg tArg v w).2 = Except.error e →
      e = RVErr.configurationNotFound (resolvedProfile pArg w.env)
        (configFileCandidates w.env w.cwd (resolvedRvHome hArg w.userHome)
          (resolvedProfile pArg w.env))) ∧
    (resolvedProfile pArg w.env = DEFAULT_PROFILE →
      exceptIsOk (reset pArg hArg ovArg tArg v w).2 = true) := by
  obtain ⟨hfst, herr, hok⟩ := reset_outcome_tmp_ok pArg hArg ovArg tArg v w htmp
  obtain ⟨hiff, huniq, hdef⟩ := discover_spec w.env
    (resetTmpStep tArg { w with logLevel := logLevelFor v }).1.fs w.cwd
    (resolvedRvHome hArg w.userHome) (resolvedProfile pArg w.env) hempty
  cases hd : discoverConfigFileLocations w.env
      (resetTmpStep tArg { w with logLevel := logLevelFor v }).1.fs w.cwd
      (resolvedRvHome hArg w.userHome) (resolvedProfile pArg w.env) with
  | error e =>
    have he2 := huniq e hd
    subst he2
    have hr := herr _ hd
    refine ⟨?_, ?_, ?_⟩
    · rw [hr]
      constructor
      · intro _
        exact hiff.mp hd
      · intro _
        rfl
    · intro e2 he2b
      rw [hr] at he2b
      injection he2b with h3
      exact h3.symm
    · intro hdefp
      have hcontr := hdef hdefp
      rw [hcontr] at hd
      exact Except.noConfusion hd
  | ok locs =>
    have hr := hok locs hd
    refine ⟨?_, ?_, ?_⟩
    · rw [hr]
      constructor
      · intro hfalse
        exact absurd hfalse (by simp [isConfigNotFound])
      · rintro ⟨hne, hall⟩
        exfalso
        have hcontr := hiff.mpr ⟨hne, hall⟩
        rw [hcontr] at hd
        exact Except.noConfusion hd
    · intro e he
      rw [hr] at he
      exact Except.noConfusion he
    · intro _
      rw [hr]
      rfl

/-- Witness for C1: a non-default profile with no existing candidate
location makes reset fail with ConfigurationNotFound. -/
theorem reset_configurationNotFound_iff_witness :
    (resetTmpStep none { w0 with logLevel := logLevelFor Verbosity.normal }).2 =
      false ∧
    isConfigNotFound (reset (some "myprof") none none none Verbosity.normal
      w0).2 = true :=
  ⟨rfl,
   (reset_configurationNotFound_iff (some "myprof") none none none
       Verbosity.normal w0 rfl rfl).1.mpr ⟨by decide, by decide⟩⟩

/-- Claim C10: when a tmp_dir argument is supplied, the tmp-dir step
does not raise, the resolved profile is not the default one and no
candidate config location exists, reset fails with
ConfigurationNotFound, but the logging threshold has already been set
from the verbosity and the process-wide temp-dir root has already been
set when the error propagates. -/
theorem reset_failure_after_side_effects (pArg hArg : Option String)
    (ovArg : Option (String → String → Option String)) (t : String)
    (v : Verbosity) (w : World)
    (htmp : (resetTmpStep (some t) { w with logLevel := logLevelFor v }).2 = false)
    (hprof : resolvedProfile pArg w.env ≠ DEFAULT_PROFILE)
    (hnone : ∀ c ∈ configFileCandidates w.env w.cwd
        (resolvedRvHome hArg w.userHome) (resolvedProfile pArg w.env),
      (resetTmpStep (some t)
        { w with logLevel := logLevelFor v }).1.fs.existsB c = false) :
    (reset pArg hArg ovArg (some t) v w).2 =
      Except.error (RVErr.configurationNotFound (resolvedProfile pArg w.env)
        (configFileCandidates w.env w.cwd (resolvedRvHome hArg w.userHome)
          (resolvedProfile pArg w.env))) ∧
    (reset pArg hArg ovArg (some t) v w).1.logLevel = logLevelFor v ∧
    (reset pArg hArg ovArg (some t) v w).1.tmpDir =
      (set_tmp_dir w.env w.tempName (some t) ⟨w.fs, w.tmpDir⟩).1.tmpDir ∧
    ((reset pArg hArg ovArg (some t) v w).1.tmpDir).isSome = true := by
  obtain ⟨hfst, herr, hok⟩ := reset_outcome_tmp_ok pArg hArg ovArg (some t) v w htmp
  have hbne : (resolvedProfile pArg w.env != DEFAULT_PROFILE) = true := by
    simpa using hprof
  have hd : discoverConfigFileLocations w.env
      (resetTmpStep (some t) { w with logLevel := logLevelFor v }).1.fs w.cwd
      (resolvedRvHome hArg w.userHome) (resolvedProfile pArg w.env) =
      Except.error (RVErr.configurationNotFound (resolvedProfile pArg w.env)
        (configFileCandidates w.env w.cwd (resolvedRvHome hArg w.userHome)
          (resolvedProfile pArg w.env))) := by
    simp only [discoverConfigFileLocations]
    have hfilter : (configFileCandidates w.env w.cwd
        (resolvedRvHome hArg w.userHome)
        (resolvedProfile pArg w.env)).filter
          (resetTmpStep (some t)
            { w with logLevel := logLevelFor v }).1.fs.existsB = [] := by
      rw [List.filter_eq_nil_iff]
      intro a ha
      simp [hnone a ha]
    rw [hfilter]
    simp [pyAnyStr, hbne]
  refine ⟨herr _ hd, ?_, ?_, ?_⟩
  · rw [hfst, resetTmpStep_logLevel]
  · rw [hfst]
    rfl
  · rw [hfst]
    rfl

/-- Witness for C10: with a fresh temp dir argument on a filesystem
where everything can be created, reset for an unknown profile fails
with ConfigurationNotFound while the temp-dir root is set. -/
theorem reset_failure_after_side_effects_witness :
    (resetTmpStep (some "/t") { w0 with logLevel := logLevelFor Verbosity.normal }).2 =
      false ∧
    (reset (some "prof2") none none (some "/t") Verbosity.normal w0).2 =
      Except.error (RVErr.configurationNotFound "prof2"
        ["/home/u/.rastervision/prof2", "/cwd/.rastervision"]) ∧
    (reset (some "prof2") none none (some "/t") Verbosity.normal w0).1.tmpDir =
      some "/t" := by
  refine ⟨by decide, ?_, ?_⟩
  · rw [(reset_failure_after_side_effects (some "prof2") none none "/t"
      Verbosity.normal w0 (by decide) (by decide) (by decide)).1]
    rfl
  · rw [(reset_failure_after_side_effects (some "prof2") none none "/t"
      Verbosity.normal w0 (by decide) (by decide) (by decide)).2.2.1]
    rfl

end RV
